import Mathlib

/-!
Verification of the transaction engine (`src/account.rs`, `src/models.rs`,
`src/transaction.rs`, `src/main.rs`).

Monetary amounts (`rust_decimal::Decimal`) are modelled as rationals `ℚ`;
`Decimal` values are exact decimal fractions, a subset of `ℚ`, and every
operation the engine performs on them (addition, negation, comparison,
truncation toward zero at 4 fractional digits) is exact rational arithmetic.
The two `DashMap` stores are modelled as association lists keyed by client id
resp. transaction id (`lookupKey` / `setKey`); `DashMap` iteration order is
unspecified, and is modelled here as the list (insertion) order.
Each handler returns the mutated ledger paired with the list of diagnostic
signals it emitted (the `log::warn!` calls); `handle_transaction` wraps the
result in `Except` mirroring the Rust `Result` return type, whose error case
is never produced.
-/

/-- Model of `truncate toward zero` on the scaled value: `⌊x⌋` for
nonnegative `x`, `⌈x⌉` for negative `x`, as `RoundingStrategy::ToZero`. -/
def truncTowardZero (x : ℚ) : ℤ :=
  if 0 ≤ x then ⌊x⌋ else ⌈x⌉

/-- `truncate_to_4` from `src/account.rs`: truncate a decimal to 4
fractional digits toward zero. -/
def truncate_to_4 (x : ℚ) : ℚ :=
  (truncTowardZero (x * 10000) : ℚ) / 10000

/-- `TransactionType` from `src/models.rs`. -/
inductive TransactionType where
  | deposit
  | withdrawal
  | dispute
  | resolve
  | chargeback
deriving DecidableEq, Repr

/-- `Transaction` from `src/models.rs` (client and tx ids are `u16`/`u32`
values; only equality of ids is ever used, so they are modelled as `ℕ`). -/
structure Transaction where
  tx_type : TransactionType
  client : ℕ
  tx : ℕ
  amount : Option ℚ
deriving DecidableEq, Repr

/-- `Account` from `src/models.rs`. -/
structure Account where
  client : ℕ
  available : ℚ
  held : ℚ
  total : ℚ
  locked : Bool
deriving DecidableEq, Repr

/-- `TransactionRecord` from `src/models.rs`. -/
structure TransactionRecord where
  client : ℕ
  amount : ℚ
  disputed : Bool
deriving DecidableEq, Repr

/-- Lookup in a keyed map (model of `DashMap::get`). -/
def lookupKey {β : Type} (k : ℕ) : List (ℕ × β) → Option β
  | [] => none
  | (k', v) :: rest => if k' = k then some v else lookupKey k rest

/-- Write-through of a keyed entry (model of mutating a `DashMap` entry, or
inserting it when absent). -/
def setKey {β : Type} (k : ℕ) (v : β) : List (ℕ × β) → List (ℕ × β)
  | [] => [(k, v)]
  | (k', v') :: rest => if k' = k then (k, v) :: rest else (k', v') :: setKey k v rest

/-- `AccountsMap` from `src/models.rs`. -/
abbrev AccountsMap := List (ℕ × Account)

/-- `TransactionsMap` from `src/models.rs`. -/
abbrev TransactionsMap := List (ℕ × TransactionRecord)

/-- `mutate_account_balance` from `src/account.rs`: add the three deltas and
truncate each field independently. -/
def mutate_account_balance (a : Account) (available_delta held_delta total_delta : ℚ) :
    Account :=
  { a with
    available := truncate_to_4 (a.available + available_delta)
    held := truncate_to_4 (a.held + held_delta)
    total := truncate_to_4 (a.total + total_delta) }

/-- `output_accounts` from `src/account.rs`: serialize the accounts in the
order the map iterates them; the implementation applies no sorting. -/
def output_accounts (m : AccountsMap) : List Account :=
  m.map Prod.snd

/-- The two shared stores of `main.rs`. -/
structure LedgerState where
  accounts : AccountsMap
  txs : TransactionsMap
deriving DecidableEq, Repr

/-- The initial state: both `DashMap`s empty. -/
def emptyLedger : LedgerState := ⟨[], []⟩

/-- The account produced by `or_insert_with` in the handlers: `client` set,
all balances `Decimal::ZERO`, `locked` false. -/
def defaultAccount (c : ℕ) : Account :=
  ⟨c, 0, 0, 0, false⟩

/-- `accounts.entry(client).or_insert_with(..)`: the map after the call and
the entry it yields. -/
def getOrCreateAccount (m : AccountsMap) (c : ℕ) : AccountsMap × Account :=
  match lookupKey c m with
  | some a => (m, a)
  | none => (setKey c (defaultAccount c) m, defaultAccount c)

/-- The `log::warn!` diagnostics emitted by the rule engine. -/
inductive Signal where
  | lockedAccountIgnored
  | depositLockedIgnored
  | withdrawalLockedIgnored
  | duplicateDeposit
  | duplicateWithdrawal
  | insufficientFunds
  | disputeNotADeposit
  | disputeFailed
  | resolveNotADeposit
  | resolveNotDisputed
  | resolveNotFound
  | chargebackNotADeposit
  | chargebackNotDisputed
  | chargebackNotFound
deriving DecidableEq, Repr

/-- `insert_transaction` from `src/transaction.rs`: insert a fresh record if
the id is vacant; return the (possibly updated) map and whether it inserted. -/
def insert_transaction (m : TransactionsMap) (tx client : ℕ) (amount : ℚ) :
    TransactionsMap × Bool :=
  match lookupKey tx m with
  | some _ => (m, false)
  | none => (setKey tx ⟨client, amount, false⟩ m, true)

/-- The locked-account read the handlers perform (`accounts.get` followed by
the `locked` test; an absent account counts as unlocked). -/
def accountLocked (m : AccountsMap) (c : ℕ) : Bool :=
  match lookupKey c m with
  | some a => a.locked
  | none => false

/-- `handle_deposit` from `src/transaction.rs`. -/
def handle_deposit (tr : Transaction) (s : LedgerState) : LedgerState × List Signal :=
  match tr.amount with
  | none => (s, [])
  | some amount =>
    if amount ≤ 0 then (s, [])
    else if accountLocked s.accounts tr.client then
      (s, [Signal.depositLockedIgnored])
    else
      let res := getOrCreateAccount s.accounts tr.client
      match insert_transaction s.txs tr.tx tr.client amount with
      | (txs', true) =>
        ({ accounts := setKey tr.client (mutate_account_balance res.2 amount 0 amount) res.1,
           txs := txs' }, [])
      | (txs', false) =>
        ({ accounts := res.1, txs := txs' }, [Signal.duplicateDeposit])

/-- `handle_withdrawal` from `src/transaction.rs`. -/
def handle_withdrawal (tr : Transaction) (s : LedgerState) : LedgerState × List Signal :=
  match tr.amount with
  | none => (s, [])
  | some amount =>
    if amount ≤ 0 then (s, [])
    else if accountLocked s.accounts tr.client then
      (s, [Signal.withdrawalLockedIgnored])
    else
      let res := getOrCreateAccount s.accounts tr.client
      if amount ≤ res.2.available then
        match insert_transaction s.txs tr.tx tr.client (-amount) with
        | (txs', true) =>
          ({ accounts :=
               setKey tr.client (mutate_account_balance res.2 (-amount) 0 (-amount)) res.1,
             txs := txs' }, [])
        | (txs', false) =>
          ({ accounts := res.1, txs := txs' }, [Signal.duplicateWithdrawal])
      else
        ({ accounts := res.1, txs := s.txs }, [Signal.insufficientFunds])

/-- `handle_dispute` from `src/transaction.rs`. -/
def handle_dispute (tr : Transaction) (s : LedgerState) : LedgerState × List Signal :=
  let res := getOrCreateAccount s.accounts tr.client
  match lookupKey tr.tx s.txs with
  | some r =>
    if r.client = tr.client ∧ r.disputed = false then
      if r.amount ≤ 0 then
        ({ accounts := res.1, txs := s.txs }, [Signal.disputeNotADeposit])
      else
        ({ accounts :=
             setKey tr.client (mutate_account_balance res.2 (-r.amount) r.amount 0) res.1,
           txs := setKey tr.tx { r with disputed := true } s.txs }, [])
    else
      ({ accounts := res.1, txs := s.txs }, [Signal.disputeFailed])
  | none =>
    ({ accounts := res.1, txs := s.txs }, [Signal.disputeFailed])

/-- `handle_resolve` from `src/transaction.rs`. -/
def handle_resolve (tr : Transaction) (s : LedgerState) : LedgerState × List Signal :=
  let res := getOrCreateAccount s.accounts tr.client
  match lookupKey tr.tx s.txs with
  | some r =>
    if r.client = tr.client ∧ r.disputed = true then
      if r.amount ≤ 0 then
        ({ accounts := res.1, txs := s.txs }, [Signal.resolveNotADeposit])
      else
        ({ accounts :=
             setKey tr.client (mutate_account_balance res.2 r.amount (-r.amount) 0) res.1,
           txs := setKey tr.tx { r with disputed := false } s.txs }, [])
    else
      ({ accounts := res.1, txs := s.txs }, [Signal.resolveNotDisputed])
  | none =>
    ({ accounts := res.1, txs := s.txs }, [Signal.resolveNotFound])

/-- `handle_chargeback` from `src/transaction.rs`: on success the record is
un-disputed, the account is locked, then `mutate_account_balance` runs with
deltas `(0, -amount, -amount)`. -/
def handle_chargeback (tr : Transaction) (s : LedgerState) : LedgerState × List Signal :=
  let res := getOrCreateAccount s.accounts tr.client
  match lookupKey tr.tx s.txs with
  | some r =>
    if r.client = tr.client ∧ r.disputed = true then
      if r.amount ≤ 0 then
        ({ accounts := res.1, txs := s.txs }, [Signal.chargebackNotADeposit])
      else
        ({ accounts :=
             setKey tr.client
               (mutate_account_balance { res.2 with locked := true } 0 (-r.amount) (-r.amount))
               res.1,
           txs := setKey tr.tx { r with disputed := false } s.txs }, [])
    else
      ({ accounts := res.1, txs := s.txs }, [Signal.chargebackNotDisputed])
  | none =>
    ({ accounts := res.1, txs := s.txs }, [Signal.chargebackNotFound])

/-- The `dispute`/`resolve`/`chargeback` test in the locked precheck of
`handle_transaction`. -/
def isDisputeLifecycle : TransactionType → Bool
  | .dispute => true
  | .resolve => true
  | .chargeback => true
  | _ => false

/-- The `match transaction.tx_type` dispatch of `handle_transaction`. -/
def dispatchTransaction (tr : Transaction) (s : LedgerState) : LedgerState × List Signal :=
  match tr.tx_type with
  | .deposit => handle_deposit tr s
  | .withdrawal => handle_withdrawal tr s
  | .dispute => handle_dispute tr s
  | .resolve => handle_resolve tr s
  | .chargeback => handle_chargeback tr s

/-- `handle_transaction` from `src/transaction.rs`: locked precheck, then
dispatch; the `Except` mirrors the Rust `Result` return type. -/
def handle_transaction (tr : Transaction) (s : LedgerState) :
    Except String (LedgerState × List Signal) :=
  if accountLocked s.accounts tr.client && !isDisputeLifecycle tr.tx_type then
    Except.ok (s, [Signal.lockedAccountIgnored])
  else
    Except.ok (dispatchTransaction tr s)

/-- The state after one event is processed (an `Err` would leave the state
untouched, as `process_client_transactions` in `main.rs` only logs it). -/
def applyTransaction (tr : Transaction) (s : LedgerState) : LedgerState :=
  match handle_transaction tr s with
  | .ok p => p.1
  | .error _ => s

/-- The diagnostic signals one event produces. -/
def signalsFor (tr : Transaction) (s : LedgerState) : List Signal :=
  match handle_transaction tr s with
  | .ok p => p.2
  | .error _ => []

/-- Processing of a whole event sequence in order. -/
def applyAll (evs : List Transaction) (s : LedgerState) : LedgerState :=
  evs.foldl (fun t e => applyTransaction e t) s

/-- States reachable from the empty ledger by processing events. -/
inductive Reachable : LedgerState → Prop where
  | init : Reachable emptyLedger
  | step (tr : Transaction) {s : LedgerState} : Reachable s → Reachable (applyTransaction tr s)

/-- The `(available, held, total)` triple of a client, reading absent
accounts as all-zero. -/
def balancesIn (m : AccountsMap) (c : ℕ) : ℚ × ℚ × ℚ :=
  match lookupKey c m with
  | some a => (a.available, a.held, a.total)
  | none => (0, 0, 0)

/-- Invariant of the transaction store: every record flagged as disputed has
a positive stored amount (only deposit records get disputed). -/
def DisputedPosMap (m : TransactionsMap) : Prop :=
  ∀ tx r, lookupKey tx m = some r → r.disputed = true → 0 < r.amount

/-- Event sequence exhibiting the balance-invariant violation: a dispute
drives `available` negative, then a deposit whose amount has 5 fractional
digits (59.99995) truncates `available` and `total` asymmetrically. -/
def c1events : List Transaction :=
  [⟨.deposit, 1, 100, some 100⟩,
   ⟨.withdrawal, 1, 101, some 60⟩,
   ⟨.dispute, 1, 100, none⟩,
   ⟨.deposit, 1, 102, some (1199999 / 20000)⟩]

/-- Event sequence whose accounts appear in the output in non-ascending
client order: client 2 is seen before client 1. -/
def c2events : List Transaction :=
  [⟨.deposit, 2, 1, some 10⟩, ⟨.deposit, 1, 2, some 20⟩]

/-- Deposit of 0.00005 followed by its dispute: the stored record amount
keeps all 5 fractional digits while the balances truncate to 0. -/
def c7events : List Transaction :=
  [⟨.deposit, 1, 100, some (1 / 20000)⟩, ⟨.dispute, 1, 100, none⟩]

/-- Concrete state with a locked account for client 1 holding a settled
deposit record (the state after deposit, dispute and chargeback of tx 100,
then a fresh deposit of 100 recorded as tx 100 being long gone; used as a
witness input). -/
def lockedLedger : LedgerState :=
  ⟨[(1, ⟨1, 0, 0, 0, true⟩)], [(100, ⟨1, 100, false⟩)]⟩

/-- Concrete state after `deposit(1,100,100)`: available 100, record 100
stored undisputed (witness input for the duplicate-id claim). -/
def scenario1Ledger : LedgerState :=
  ⟨[(1, ⟨1, 100, 0, 100, false⟩)], [(100, ⟨1, 100, false⟩)]⟩

/-- Concrete state after `deposit(1,100,100); dispute(1,100)`: the deposit
is held and its record disputed (witness input for the chargeback claim). -/
def scenario3Ledger : LedgerState :=
  ⟨[(1, ⟨1, 0, 100, 100, false⟩)], [(100, ⟨1, 100, true⟩)]⟩

/-- Reading a key after a keyed write: the written value at the written key,
the old content elsewhere. -/
theorem lookupKey_setKey {β : Type} (k k' : ℕ) (v : β) (m : List (ℕ × β)) :
    lookupKey k' (setKey k v m) = if k = k' then some v else lookupKey k' m := by
  induction m with
  | nil => simp [setKey, lookupKey]
  | cons p rest ih =>
    obtain ⟨k'', v''⟩ := p
    by_cases h1 : k'' = k
    · subst h1
      by_cases h2 : k'' = k'
      · subst h2; simp [setKey, lookupKey]
      · simp [setKey, lookupKey, h2]
    · by_cases h2 : k'' = k'
      · subst h2
        have hk : ¬ k = k'' := fun h => h1 h.symm
        simp [setKey, lookupKey, h1, hk]
      · simp [setKey, lookupKey, h1, h2, ih]

/-- A value found by key lookup is among the values of the map. -/
theorem mem_map_snd_of_lookupKey {β : Type} {k : ℕ} {v : β} {m : List (ℕ × β)}
    (h : lookupKey k m = some v) : v ∈ m.map Prod.snd := by
  induction m with
  | nil => simp [lookupKey] at h
  | cons p rest ih =>
    obtain ⟨k', v'⟩ := p
    simp only [lookupKey] at h
    by_cases hk : k' = k
    · rw [if_pos hk] at h
      simp only [Option.some.injEq] at h
      simp [h]
    · rw [if_neg hk] at h
      simp [ih h]

/-- Certificate rule for evaluating `truncate_to_4` on a nonnegative value. -/
theorem truncate_to_4_eq_of_nonneg {x : ℚ} {n : ℤ} (h0 : 0 ≤ x)
    (h1 : (n : ℚ) ≤ x * 10000) (h2 : x * 10000 < n + 1) :
    truncate_to_4 x = (n : ℚ) / 10000 := by
  have h0' : 0 ≤ x * 10000 := by positivity
  rw [truncate_to_4, truncTowardZero, if_pos h0', Int.floor_eq_iff.mpr ⟨h1, h2⟩]

/-- Certificate rule for evaluating `truncate_to_4` on a negative value. -/
theorem truncate_to_4_eq_of_neg {x : ℚ} {n : ℤ} (h0 : x < 0)
    (h1 : x * 10000 ≤ n) (h2 : (n : ℚ) - 1 < x * 10000) :
    truncate_to_4 x = (n : ℚ) / 10000 := by
  have hy : x * 10000 < 0 := by
    have : (0:ℚ) < 10000 := by norm_num
    exact mul_neg_of_neg_of_pos h0 this
  rw [truncate_to_4, truncTowardZero, if_neg (not_le.mpr hy),
    Int.ceil_eq_iff.mpr ⟨h2, h1⟩]

/-- Truncation fixes 0. -/
theorem trunc4_zero : truncate_to_4 0 = 0 := by
  have := truncate_to_4_eq_of_nonneg (x := 0) (n := 0) (by norm_num) (by norm_num) (by norm_num)
  simpa using this

/-- Truncation fixes 10. -/
theorem trunc4_ten : truncate_to_4 10 = 10 := by
  have := truncate_to_4_eq_of_nonneg (x := 10) (n := 100000) (by norm_num) (by norm_num)
    (by norm_num)
  rw [this]; norm_num

/-- Truncation fixes 20. -/
theorem trunc4_twenty : truncate_to_4 20 = 20 := by
  have := truncate_to_4_eq_of_nonneg (x := 20) (n := 200000) (by norm_num) (by norm_num)
    (by norm_num)
  rw [this]; norm_num

/-- Truncation fixes 40. -/
theorem trunc4_forty : truncate_to_4 40 = 40 := by
  have := truncate_to_4_eq_of_nonneg (x := 40) (n := 400000) (by norm_num) (by norm_num)
    (by norm_num)
  rw [this]; norm_num

/-- Truncation fixes 100. -/
theorem trunc4_hundred : truncate_to_4 100 = 100 := by
  have := truncate_to_4_eq_of_nonneg (x := 100) (n := 1000000) (by norm_num) (by norm_num)
    (by norm_num)
  rw [this]; norm_num

/-- Truncation fixes -60. -/
theorem trunc4_neg_sixty : truncate_to_4 (-60) = -60 := by
  have := truncate_to_4_eq_of_neg (x := -60) (n := -600000) (by norm_num) (by norm_num)
    (by norm_num)
  rw [this]; norm_num

/-- Truncation collapses 0.00005 to 0. -/
theorem trunc4_small_pos : truncate_to_4 (1 / 20000) = 0 := by
  have := truncate_to_4_eq_of_nonneg (x := 1 / 20000) (n := 0) (by norm_num) (by norm_num)
    (by norm_num)
  simpa using this

/-- Truncation collapses -0.00005 to 0 (toward zero, not away). -/
theorem trunc4_small_neg : truncate_to_4 (-(1 / 20000)) = 0 := by
  have := truncate_to_4_eq_of_neg (x := -(1 / 20000)) (n := 0) (by norm_num) (by norm_num)
    (by norm_num)
  simpa using this

/-- Truncation of 99.99995 is 99.9999. -/
theorem trunc4_c1_total : truncate_to_4 (1999999 / 20000) = 999999 / 10000 := by
  have := truncate_to_4_eq_of_nonneg (x := 1999999 / 20000) (n := 999999) (by norm_num)
    (by norm_num) (by norm_num)
  rw [this]; norm_num

/-- Truncation never increases magnitude. -/
theorem abs_truncate_to_4_le (x : ℚ) : |truncate_to_4 x| ≤ |x| := by
  rcases le_or_lt 0 x with h | h
  · have hy : 0 ≤ x * 10000 := by positivity
    have h1 : (0:ℤ) ≤ ⌊x * 10000⌋ := Int.floor_nonneg.mpr hy
    have h1' : (0:ℚ) ≤ (⌊x * 10000⌋ : ℚ) := by exact_mod_cast h1
    have h2 : (⌊x * 10000⌋ : ℚ) ≤ x * 10000 := Int.floor_le _
    rw [truncate_to_4, truncTowardZero, if_pos hy, abs_of_nonneg h,
      abs_of_nonneg (by positivity : (0:ℚ) ≤ (⌊x * 10000⌋ : ℚ) / 10000)]
    rw [div_le_iff₀ (by norm_num : (0:ℚ) < 10000)]
    exact h2
  · have hy : x * 10000 < 0 := mul_neg_of_neg_of_pos h (by norm_num)
    have h1 : ⌈x * 10000⌉ ≤ 0 := Int.ceil_le.mpr (by exact_mod_cast le_of_lt hy)
    have h1' : ((⌈x * 10000⌉ : ℤ) : ℚ) ≤ 0 := by exact_mod_cast h1
    have h2 : x * 10000 ≤ (⌈x * 10000⌉ : ℚ) := Int.le_ceil _
    rw [truncate_to_4, truncTowardZero, if_neg (not_le.mpr hy), abs_of_nonpos (le_of_lt h),
      abs_of_nonpos (by linarith : ((⌈x * 10000⌉ : ℤ) : ℚ) / 10000 ≤ 0)]
    rw [neg_le_neg_iff, le_div_iff₀ (by norm_num : (0:ℚ) < 10000)]
    exact h2

/-- C8: `truncate_to_4` truncates toward zero at 4 fractional digits:
123.45678 maps to 123.4567, -1.00005 maps to -1.0000, the result always
lies on the 4-digit grid, and truncation never increases magnitude. -/
theorem c8_truncate_toward_zero :
    truncate_to_4 (12345678 / 100000) = 1234567 / 10000 ∧
    truncate_to_4 (-(100005 / 100000)) = -1 ∧
    (∀ x : ℚ, ∃ n : ℤ, truncate_to_4 x = (n : ℚ) / 10000) ∧
    ∀ x : ℚ, |truncate_to_4 x| ≤ |x| := by
  refine ⟨?_, ?_, fun x => ⟨truncTowardZero (x * 10000), rfl⟩, abs_truncate_to_4_le⟩
  · have := truncate_to_4_eq_of_nonneg (x := 12345678 / 100000) (n := 1234567)
      (by norm_num) (by norm_num) (by norm_num)
    rw [this]; norm_num
  · have := truncate_to_4_eq_of_neg (x := -(100005 / 100000)) (n := -10000)
      (by norm_num) (by norm_num) (by norm_num)
    rw [this]; norm_num

/-- C6: the rule engine never raises a fatal error: for every event in every
state, `handle_transaction` returns `Except.ok`, carrying the successor
state and the diagnostic signals of the (possibly rejected) event, so
processing always continues with the next event. -/
theorem c6_no_fatal_error (tr : Transaction) (s : LedgerState) :
    handle_transaction tr s = Except.ok (applyTransaction tr s, signalsFor tr s) := by
  by_cases h : (accountLocked s.accounts tr.client && !isDisputeLifecycle tr.tx_type) = true
  · simp [handle_transaction, applyTransaction, signalsFor, h]
  · simp [handle_transaction, applyTransaction, signalsFor, h]

/-- C2: the final output is the accounts in map-iteration order with no
sorting applied: seeing client 2 before client 1 makes the emitted client
sequence [2, 1], which is not ascending (the code contradicts its own
`sorted by client ID` doc comment). -/
theorem c2_output_unsorted :
    (output_accounts (applyAll c2events emptyLedger).accounts).map Account.client = [2, 1] ∧
    ¬ List.Sorted (· ≤ ·)
      ((output_accounts (applyAll c2events emptyLedger).accounts).map Account.client) := by
  have h : (applyAll c2events emptyLedger).accounts =
      [(2, ⟨2, 10, 0, 10, false⟩), (1, ⟨1, 20, 0, 20, false⟩)] := by
    norm_num [c2events, applyAll, applyTransaction, signalsFor, handle_transaction,
      dispatchTransaction, handle_deposit, accountLocked, getOrCreateAccount,
      insert_transaction, mutate_account_balance, setKey, lookupKey, emptyLedger,
      defaultAccount, isDisputeLifecycle, trunc4_ten, trunc4_twenty, trunc4_zero,
      List.foldl]
  rw [h]
  constructor
  · simp [output_accounts]
  · simp only [output_accounts, List.map_map]
    decide

/-- C1: the balance invariant fails on the code: after deposit 100,
withdrawal 60, dispute of the deposit (driving available to -60) and a
deposit of 59.99995, client 1 ends with available 0 and held 100 but total
99.9999, because the independent toward-zero truncations of available
(-0.00005 → 0) and total (99.99995 → 99.9999) move in different
directions. -/
theorem c1_invariant_violation :
    balancesIn (applyAll c1events emptyLedger).accounts 1 = (0, 100, 999999 / 10000) ∧
    (0 : ℚ) + 100 ≠ (999999 : ℚ) / 10000 := by
  constructor
  · norm_num [c1events, applyAll, applyTransaction, handle_transaction,
      dispatchTransaction, handle_deposit, handle_withdrawal, handle_dispute,
      accountLocked, getOrCreateAccount, insert_transaction, mutate_account_balance,
      setKey, lookupKey, emptyLedger, defaultAccount, isDisputeLifecycle,
      trunc4_zero, trunc4_forty, trunc4_hundred, trunc4_neg_sixty, trunc4_small_neg,
      trunc4_c1_total, balancesIn, List.foldl]
  · norm_num

/-- C3 counterexample: a dispute whose transaction id is unknown does not
leave the ledger unchanged: it creates a default account for the event's
client as a side effect of the entry/or_insert_with lookup. -/
theorem c3_counterexample :
    applyTransaction ⟨.dispute, 1, 999, none⟩ emptyLedger ≠ emptyLedger ∧
    (applyTransaction ⟨.dispute, 1, 999, none⟩ emptyLedger).accounts =
      [(1, defaultAccount 1)] := by
  have h2 : (applyTransaction ⟨.dispute, 1, 999, none⟩ emptyLedger).accounts =
      [(1, defaultAccount 1)] := by
    simp [applyTransaction, handle_transaction, dispatchTransaction, isDisputeLifecycle,
      accountLocked, handle_dispute, getOrCreateAccount, lookupKey, setKey, emptyLedger]
  refine ⟨?_, h2⟩
  intro h
  rw [h] at h2
  simp [emptyLedger] at h2

/-- C3 (amended): a dispute that fails its lookup preconditions (record not
found, wrong client, or already disputed) leaves every transaction record
unchanged and changes the accounts only by the get-or-create side effect: a
default zero-balance unlocked account is inserted for the event's client if
absent; a `disputeFailed` signal is emitted. -/
theorem c3_failed_dispute_only_creates_account (tr : Transaction) (s : LedgerState)
    (hty : tr.tx_type = TransactionType.dispute)
    (hfail : lookupKey tr.tx s.txs = none ∨
      ∃ r, lookupKey tr.tx s.txs = some r ∧ (¬ r.client = tr.client ∨ r.disputed = true)) :
    (applyTransaction tr s).txs = s.txs ∧
    (applyTransaction tr s).accounts = (getOrCreateAccount s.accounts tr.client).1 ∧
    signalsFor tr s = [Signal.disputeFailed] := by
  have hd : dispatchTransaction tr s = handle_dispute tr s := by
    simp [dispatchTransaction, hty]
  have hlife : isDisputeLifecycle tr.tx_type = true := by
    simp [isDisputeLifecycle, hty]
  have hT : handle_transaction tr s = Except.ok (handle_dispute tr s) := by
    simp [handle_transaction, hlife, hd]
  rcases hfail with hnone | ⟨r, hr, hbad⟩
  · simp [applyTransaction, signalsFor, hT, handle_dispute, hnone]
  · have hguard : ¬ (r.client = tr.client ∧ r.disputed = false) := by
      rcases hbad with h | h
      · exact fun hc => h hc.1
      · intro hc
        rw [hc.2] at h
        exact Bool.noConfusion h
    simp [applyTransaction, signalsFor, hT, handle_dispute, hr, hguard]

/-- C3 witness: at the concrete failing dispute (unknown tx 999 on the
empty ledger) the amended theorem instantiates. -/
theorem c3_witness :
    (applyTransaction ⟨.dispute, 1, 999, none⟩ emptyLedger).txs = emptyLedger.txs ∧
    signalsFor ⟨.dispute, 1, 999, none⟩ emptyLedger = [Signal.disputeFailed] := by
  have h := c3_failed_dispute_only_creates_account ⟨.dispute, 1, 999, none⟩ emptyLedger
    rfl (Or.inl rfl)
  exact ⟨h.1, h.2.2⟩

/-- The get-or-create lookup never changes any client's balance triple: the
account it may insert is all-zero, the default reading of an absent one. -/
theorem balancesIn_getOrCreate (m : AccountsMap) (c c' : ℕ) :
    balancesIn (getOrCreateAccount m c).1 c' = balancesIn m c' := by
  cases h : lookupKey c m with
  | some a => simp [getOrCreateAccount, h]
  | none =>
    by_cases hc : c = c'
    · subst hc
      simp [getOrCreateAccount, h, balancesIn, lookupKey_setKey, defaultAccount]
    · simp [getOrCreateAccount, h, balancesIn, lookupKey_setKey, hc]

/-- C4: a deposit or withdrawal whose transaction id is already recorded
changes no client's (available, held, total) balances and leaves the whole
transaction store — in particular the existing record — untouched. -/
theorem c4_duplicate_tx_id_idempotent (tr : Transaction) (s : LedgerState)
    (r : TransactionRecord)
    (hty : tr.tx_type = TransactionType.deposit ∨ tr.tx_type = TransactionType.withdrawal)
    (hdup : lookupKey tr.tx s.txs = some r) :
    (∀ c, balancesIn (applyTransaction tr s).accounts c = balancesIn s.accounts c) ∧
    (applyTransaction tr s).txs = s.txs := by
  by_cases hpre : (accountLocked s.accounts tr.client && !isDisputeLifecycle tr.tx_type) = true
  · simp [applyTransaction, handle_transaction, hpre]
  · have hT : applyTransaction tr s = (dispatchTransaction tr s).1 := by
      simp [applyTransaction, handle_transaction, hpre]
    rcases hty with hty | hty
    · have hdd : dispatchTransaction tr s = handle_deposit tr s := by
        simp [dispatchTransaction, hty]
      rw [hT, hdd]
      cases ham : tr.amount with
      | none => simp [handle_deposit, ham]
      | some amount =>
        by_cases hle : amount ≤ 0
        · simp [handle_deposit, ham, hle]
        · by_cases hlk : accountLocked s.accounts tr.client = true
          · simp [handle_deposit, ham, hle, hlk]
          · have hins : insert_transaction s.txs tr.tx tr.client amount = (s.txs, false) := by
              simp [insert_transaction, hdup]
            have hval : handle_deposit tr s =
                ({ accounts := (getOrCreateAccount s.accounts tr.client).1, txs := s.txs },
                 [Signal.duplicateDeposit]) := by
              simp [handle_deposit, ham, hle, hlk, hins]
            rw [hval]
            exact ⟨fun c => balancesIn_getOrCreate s.accounts tr.client c, rfl⟩
    · have hdd : dispatchTransaction tr s = handle_withdrawal tr s := by
        simp [dispatchTransaction, hty]
      rw [hT, hdd]
      cases ham : tr.amount with
      | none => simp [handle_withdrawal, ham]
      | some amount =>
        by_cases hle : amount ≤ 0
        · simp [handle_withdrawal, ham, hle]
        · by_cases hlk : accountLocked s.accounts tr.client = true
          · simp [handle_withdrawal, ham, hle, hlk]
          · by_cases hav : amount ≤ (getOrCreateAccount s.accounts tr.client).2.available
            · have hins : insert_transaction s.txs tr.tx tr.client (-amount) =
                  (s.txs, false) := by
                simp [insert_transaction, hdup]
              have hval : handle_withdrawal tr s =
                  ({ accounts := (getOrCreateAccount s.accounts tr.client).1, txs := s.txs },
                   [Signal.duplicateWithdrawal]) := by
                simp [handle_withdrawal, ham, hle, hlk, hav, hins]
              rw [hval]
              exact ⟨fun c => balancesIn_getOrCreate s.accounts tr.client c, rfl⟩
            · have hval : handle_withdrawal tr s =
                  ({ accounts := (getOrCreateAccount s.accounts tr.client).1, txs := s.txs },
                   [Signal.insufficientFunds]) := by
                simp [handle_withdrawal, ham, hle, hlk, hav]
              rw [hval]
              exact ⟨fun c => balancesIn_getOrCreate s.accounts tr.client c, rfl⟩

/-- C4 witness: re-sending tx 100 as a deposit of 200 after
`deposit(1,100,100)` changes neither the record store nor client 1's
balances. -/
theorem c4_witness :
    (applyTransaction ⟨.deposit, 1, 100, some 200⟩ scenario1Ledger).txs =
      scenario1Ledger.txs ∧
    balancesIn (applyTransaction ⟨.deposit, 1, 100, some 200⟩ scenario1Ledger).accounts 1 =
      balancesIn scenario1Ledger.accounts 1 := by
  have h := c4_duplicate_tx_id_idempotent ⟨.deposit, 1, 100, some 200⟩ scenario1Ledger
    ⟨1, 100, false⟩ (Or.inl rfl) (by simp [scenario1Ledger, lookupKey])
  exact ⟨h.2, h.1 1⟩

/-- C5: once a client's account is locked, a deposit or withdrawal for that
client is a strict no-op (the state is returned unchanged, with only the
locked-account signal), while dispute, resolve and chargeback still pass
the precheck and are dispatched to their normal handlers. -/
theorem c5_locked_account (tr : Transaction) (s : LedgerState) (a : Account)
    (hacct : lookupKey tr.client s.accounts = some a) (hlock : a.locked = true) :
    ((tr.tx_type = TransactionType.deposit ∨ tr.tx_type = TransactionType.withdrawal) →
      applyTransaction tr s = s ∧ signalsFor tr s = [Signal.lockedAccountIgnored]) ∧
    (isDisputeLifecycle tr.tx_type = true →
      handle_transaction tr s = Except.ok (dispatchTransaction tr s)) := by
  have hlk : accountLocked s.accounts tr.client = true := by
    simp [accountLocked, hacct, hlock]
  constructor
  · intro hty
    have hnl : isDisputeLifecycle tr.tx_type = false := by
      rcases hty with h | h <;> simp [isDisputeLifecycle, h]
    have hpre : (accountLocked s.accounts tr.client && !isDisputeLifecycle tr.tx_type)
        = true := by
      simp [hlk, hnl]
    simp [applyTransaction, signalsFor, handle_transaction, hpre]
  · intro hlife
    have hpre : (accountLocked s.accounts tr.client && !isDisputeLifecycle tr.tx_type)
        = false := by
      simp [hlife]
    simp [handle_transaction, hpre]

/-- C5 witness: on a ledger whose client-1 account is locked, a deposit is a
strict no-op and a dispute is dispatched normally. -/
theorem c5_witness :
    applyTransaction ⟨.deposit, 1, 101, some 50⟩ lockedLedger = lockedLedger ∧
    handle_transaction ⟨.dispute, 1, 100, none⟩ lockedLedger =
      Except.ok (dispatchTransaction ⟨.dispute, 1, 100, none⟩ lockedLedger) := by
  constructor
  · exact ((c5_locked_account ⟨.deposit, 1, 101, some 50⟩ lockedLedger ⟨1, 0, 0, 0, true⟩
      (by simp [lockedLedger, lookupKey]) rfl).1 (Or.inl rfl)).1
  · exact (c5_locked_account ⟨.dispute, 1, 100, none⟩ lockedLedger ⟨1, 0, 0, 0, true⟩
      (by simp [lockedLedger, lookupKey]) rfl).2 rfl

/-- C7 counterexample: after depositing 0.00005 and disputing it, the
disputed record holds amount 0.00005 > 0 and held is 0; the chargeback
leaves held at 0 (truncation of -0.00005 toward zero), not at
held - amount = -0.00005, so chargeback does not decrease held by the
stored amount. -/
theorem c7_counterexample :
    lookupKey 100 (applyAll c7events emptyLedger).txs = some ⟨1, 1 / 20000, true⟩ ∧
    balancesIn (applyAll c7events emptyLedger).accounts 1 = (0, 0, 0) ∧
    balancesIn
      (applyTransaction ⟨.chargeback, 1, 100, none⟩ (applyAll c7events emptyLedger)).accounts 1
      = (0, 0, 0) ∧
    (0 : ℚ) ≠ 0 - 1 / 20000 := by
  have h2 : applyAll c7events emptyLedger =
      ⟨[(1, ⟨1, 0, 0, 0, false⟩)], [(100, ⟨1, 1 / 20000, true⟩)]⟩ := by
    norm_num [c7events, applyAll, applyTransaction, handle_transaction, dispatchTransaction,
      handle_deposit, handle_dispute, accountLocked, getOrCreateAccount, insert_transaction,
      mutate_account_balance, setKey, lookupKey, emptyLedger, defaultAccount,
      isDisputeLifecycle, trunc4_zero, trunc4_small_pos, trunc4_small_neg, List.foldl]
  have h3 : applyTransaction ⟨.chargeback, 1, 100, none⟩
      (⟨[(1, ⟨1, 0, 0, 0, false⟩)], [(100, ⟨1, 1 / 20000, true⟩)]⟩ : LedgerState) =
      ⟨[(1, ⟨1, 0, 0, 0, true⟩)], [(100, ⟨1, 1 / 20000, false⟩)]⟩ := by
    norm_num [applyTransaction, handle_transaction, dispatchTransaction, handle_chargeback,
      accountLocked, getOrCreateAccount, mutate_account_balance, setKey, lookupKey,
      isDisputeLifecycle, trunc4_zero, trunc4_small_neg]
  refine ⟨?_, ?_, ?_, by norm_num⟩
  · rw [h2]; simp [lookupKey]
  · rw [h2]; simp [balancesIn, lookupKey]
  · rw [h2, h3]; simp [balancesIn, lookupKey]

/-- C7 (amended): a chargeback whose record matches (client, disputed, amount
positive) clears the disputed flag, locks the account, and sets the account
balances to the truncations `truncate_to_4 available`,
`truncate_to_4 (held - amount)`, `truncate_to_4 (total - amount)`; these
equal `available`, `held - amount`, `total - amount` exactly whenever the
amount and the balances lie on the 4-digit grid, as in the scenario
deposit(1,100,100); dispute(1,100); chargeback(1,100) which ends with
held = 0, total = 0, locked = true. -/
theorem c7_chargeback_success (tr : Transaction) (s : LedgerState) (r : TransactionRecord)
    (hty : tr.tx_type = TransactionType.chargeback)
    (hrec : lookupKey tr.tx s.txs = some r)
    (hcl : r.client = tr.client) (hdisp : r.disputed = true) (hamt : 0 < r.amount) :
    lookupKey tr.tx (applyTransaction tr s).txs = some { r with disputed := false } ∧
    lookupKey tr.client (applyTransaction tr s).accounts =
      some { client := (getOrCreateAccount s.accounts tr.client).2.client,
             available :=
               truncate_to_4 ((getOrCreateAccount s.accounts tr.client).2.available),
             held :=
               truncate_to_4 ((getOrCreateAccount s.accounts tr.client).2.held - r.amount),
             total :=
               truncate_to_4 ((getOrCreateAccount s.accounts tr.client).2.total - r.amount),
             locked := true } ∧
    signalsFor tr s = [] := by
  have hd : dispatchTransaction tr s = handle_chargeback tr s := by
    simp [dispatchTransaction, hty]
  have hlife : isDisputeLifecycle tr.tx_type = true := by
    simp [isDisputeLifecycle, hty]
  have hT : handle_transaction tr s = Except.ok (handle_chargeback tr s) := by
    simp [handle_transaction, hlife, hd]
  have hguard : r.client = tr.client ∧ r.disputed = true := ⟨hcl, hdisp⟩
  have hnle : ¬ r.amount ≤ 0 := not_le.mpr hamt
  have hcb : handle_chargeback tr s =
      ({ accounts := setKey tr.client
           (mutate_account_balance
             { (getOrCreateAccount s.accounts tr.client).2 with locked := true }
             0 (-r.amount) (-r.amount))
           (getOrCreateAccount s.accounts tr.client).1,
         txs := setKey tr.tx { r with disputed := false } s.txs }, []) := by
    simp [handle_chargeback, hrec, hguard, hnle]
  refine ⟨?_, ?_, ?_⟩
  · simp [applyTransaction, hT, hcb, lookupKey_setKey]
  · simp only [applyTransaction, hT, hcb, lookupKey_setKey, if_pos rfl,
      mutate_account_balance]
    rw [add_zero]
    rw [show (getOrCreateAccount s.accounts tr.client).2.held + -r.amount =
      (getOrCreateAccount s.accounts tr.client).2.held - r.amount from by ring]
    rw [show (getOrCreateAccount s.accounts tr.client).2.total + -r.amount =
      (getOrCreateAccount s.accounts tr.client).2.total - r.amount from by ring]
    simp
  · simp [signalsFor, hT, hcb]

/-- C7 witness: in the state after deposit(1,100,100) and dispute(1,100), a
chargeback of tx 100 leaves client 1 with available 0, held 0, total 0,
locked, and the record un-disputed. -/
theorem c7_witness :
    lookupKey 1 (applyTransaction ⟨.chargeback, 1, 100, none⟩ scenario3Ledger).accounts =
      some ⟨1, 0, 0, 0, true⟩ ∧
    lookupKey 100 (applyTransaction ⟨.chargeback, 1, 100, none⟩ scenario3Ledger).txs =
      some ⟨1, 100, false⟩ := by
  have h := c7_chargeback_success ⟨.chargeback, 1, 100, none⟩ scenario3Ledger ⟨1, 100, true⟩
    rfl (by simp [scenario3Ledger, lookupKey]) rfl rfl (by norm_num)
  refine ⟨?_, h.1⟩
  have h2 := h.2.1
  have e1 : (getOrCreateAccount scenario3Ledger.accounts 1).2 =
      (⟨1, 0, 100, 100, false⟩ : Account) := by
    simp [getOrCreateAccount, scenario3Ledger, lookupKey]
  rw [e1] at h2
  norm_num [trunc4_zero] at h2
  exact h2

/-- The empty store satisfies the disputed-implies-positive invariant. -/
theorem disputedPos_empty : DisputedPosMap emptyLedger.txs := by
  intro tx r h _
  simp [emptyLedger, lookupKey] at h

/-- Writing a record that is safe for the invariant preserves it. -/
theorem disputedPos_setKey {m : TransactionsMap} (hm : DisputedPosMap m) {k : ℕ}
    {r : TransactionRecord} (hr : r.disputed = true → 0 < r.amount) :
    DisputedPosMap (setKey k r m) := by
  intro tx r' hl hd
  rw [lookupKey_setKey] at hl
  by_cases hk : k = tx
  · rw [if_pos hk] at hl
    obtain rfl := Option.some.inj hl
    exact hr hd
  · rw [if_neg hk] at hl
    exact hm tx r' hl hd

/-- `insert_transaction` preserves the invariant: a fresh record starts
undisputed. -/
theorem disputedPos_insert (m : TransactionsMap) (tx c : ℕ) (amt : ℚ)
    (hm : DisputedPosMap m) : DisputedPosMap (insert_transaction m tx c amt).1 := by
  unfold insert_transaction
  cases h : lookupKey tx m with
  | some r => exact hm
  | none =>
    exact disputedPos_setKey hm (fun hd => absurd hd (by simp))

/-- `handle_deposit` preserves the invariant. -/
theorem disputedPos_deposit (tr : Transaction) (s : LedgerState)
    (hm : DisputedPosMap s.txs) : DisputedPosMap (handle_deposit tr s).1.txs := by
  unfold handle_deposit
  cases ham : tr.amount with
  | none => exact hm
  | some amount =>
    by_cases hle : amount ≤ 0
    · simpa [if_pos hle] using hm
    · by_cases hlk : accountLocked s.accounts tr.client = true
      · simpa [if_neg hle, hlk] using hm
      · have hins := disputedPos_insert s.txs tr.tx tr.client amount hm
        rcases hq : insert_transaction s.txs tr.tx tr.client amount with ⟨txs', b⟩
        rw [hq] at hins
        simp only [if_neg hle, hlk, Bool.false_eq_true, if_false, hq]
        cases b <;> simpa using hins

/-- `handle_withdrawal` preserves the invariant. -/
theorem disputedPos_withdrawal (tr : Transaction) (s : LedgerState)
    (hm : DisputedPosMap s.txs) : DisputedPosMap (handle_withdrawal tr s).1.txs := by
  unfold handle_withdrawal
  cases ham : tr.amount with
  | none => exact hm
  | some amount =>
    by_cases hle : amount ≤ 0
    · simpa [if_pos hle] using hm
    · by_cases hlk : accountLocked s.accounts tr.client = true
      · simpa [if_neg hle, hlk] using hm
      · by_cases hav : amount ≤ (getOrCreateAccount s.accounts tr.client).2.available
        · have hins := disputedPos_insert s.txs tr.tx tr.client (-amount) hm
          rcases hq : insert_transaction s.txs tr.tx tr.client (-amount) with ⟨txs', b⟩
          rw [hq] at hins
          simp only [if_neg hle, hlk, Bool.false_eq_true, if_false, if_pos hav, hq]
          cases b <;> simpa using hins
        · simpa [if_neg hle, hlk, if_neg hav] using hm

/-- `handle_dispute` preserves the invariant: the flag is only raised on a
record whose amount passed the positivity check. -/
theorem disputedPos_dispute (tr : Transaction) (s : LedgerState)
    (hm : DisputedPosMap s.txs) : DisputedPosMap (handle_dispute tr s).1.txs := by
  unfold handle_dispute
  cases h : lookupKey tr.tx s.txs with
  | none => simpa using hm
  | some r =>
    by_cases hg : r.client = tr.client ∧ r.disputed = false
    · by_cases hle : r.amount ≤ 0
      · simpa [if_pos hg, if_pos hle] using hm
      · simp only [if_pos hg, if_neg hle]
        simpa using disputedPos_setKey (k := tr.tx) (r := { r with disputed := true }) hm
          (fun _ => not_le.mp hle)
    · simpa [if_neg hg] using hm

/-- `handle_resolve` preserves the invariant: it only clears the flag. -/
theorem disputedPos_resolve (tr : Transaction) (s : LedgerState)
    (hm : DisputedPosMap s.txs) : DisputedPosMap (handle_resolve tr s).1.txs := by
  unfold handle_resolve
  cases h : lookupKey tr.tx s.txs with
  | none => simpa using hm
  | some r =>
    by_cases hg : r.client = tr.client ∧ r.disputed = true
    · by_cases hle : r.amount ≤ 0
      · simpa [if_pos hg, if_pos hle] using hm
      · simp only [if_pos hg, if_neg hle]
        simpa using disputedPos_setKey (k := tr.tx) (r := { r with disputed := false }) hm
          (fun hd => absurd hd (by simp))
    · simpa [if_neg hg] using hm

/-- `handle_chargeback` preserves the invariant: it only clears the flag. -/
theorem disputedPos_chargeback (tr : Transaction) (s : LedgerState)
    (hm : DisputedPosMap s.txs) : DisputedPosMap (handle_chargeback tr s).1.txs := by
  unfold handle_chargeback
  cases h : lookupKey tr.tx s.txs with
  | none => simpa using hm
  | some r =>
    by_cases hg : r.client = tr.client ∧ r.disputed = true
    · by_cases hle : r.amount ≤ 0
      · simpa [if_pos hg, if_pos hle] using hm
      · simp only [if_pos hg, if_neg hle]
        simpa using disputedPos_setKey (k := tr.tx) (r := { r with disputed := false }) hm
          (fun hd => absurd hd (by simp))
    · simpa [if_neg hg] using hm

/-- One engine step preserves the disputed-implies-positive invariant. -/
theorem disputedPos_step (tr : Transaction) (s : LedgerState)
    (hm : DisputedPosMap s.txs) : DisputedPosMap (applyTransaction tr s).txs := by
  by_cases hpre : (accountLocked s.accounts tr.client && !isDisputeLifecycle tr.tx_type) = true
  · simpa [applyTransaction, handle_transaction, hpre] using hm
  · have hT : applyTransaction tr s = (dispatchTransaction tr s).1 := by
      simp [applyTransaction, handle_transaction, hpre]
    rw [hT]
    cases hty : tr.tx_type with
    | deposit =>
      rw [show dispatchTransaction tr s = handle_deposit tr s from by
        simp [dispatchTransaction, hty]]
      exact disputedPos_deposit tr s hm
    | withdrawal =>
      rw [show dispatchTransaction tr s = handle_withdrawal tr s from by
        simp [dispatchTransaction, hty]]
      exact disputedPos_withdrawal tr s hm
    | dispute =>
      rw [show dispatchTransaction tr s = handle_dispute tr s from by
        simp [dispatchTransaction, hty]]
      exact disputedPos_dispute tr s hm
    | resolve =>
      rw [show dispatchTransaction tr s = handle_resolve tr s from by
        simp [dispatchTransaction, hty]]
      exact disputedPos_resolve tr s hm
    | chargeback =>
      rw [show dispatchTransaction tr s = handle_chargeback tr s from by
        simp [dispatchTransaction, hty]]
      exact disputedPos_chargeback tr s hm

/-- C9: in every reachable state, every disputed record has positive amount,
so the `not a deposit` rejection branch inside resolve and chargeback never
fires: those handlers never emit the corresponding signal. -/
theorem c9_disputed_records_positive (s : LedgerState) (h : Reachable s) :
    DisputedPosMap s.txs ∧
    (∀ tr : Transaction, Signal.resolveNotADeposit ∉ (handle_resolve tr s).2) ∧
    (∀ tr : Transaction, Signal.chargebackNotADeposit ∉ (handle_chargeback tr s).2) := by
  have hmain : DisputedPosMap s.txs := by
    induction h with
    | init => exact disputedPos_empty
    | step tr hs ih => exact disputedPos_step tr _ ih
  refine ⟨hmain, fun tr => ?_, fun tr => ?_⟩
  · unfold handle_resolve
    cases hl : lookupKey tr.tx s.txs with
    | none => simp
    | some r =>
      by_cases hg : r.client = tr.client ∧ r.disputed = true
      · have hle : ¬ r.amount ≤ 0 := not_le.mpr (hmain tr.tx r hl hg.2)
        simp [if_pos hg, if_neg hle]
      · simp [if_neg hg]
  · unfold handle_chargeback
    cases hl : lookupKey tr.tx s.txs with
    | none => simp
    | some r =>
      by_cases hg : r.client = tr.client ∧ r.disputed = true
      · have hle : ¬ r.amount ≤ 0 := not_le.mpr (hmain tr.tx r hl hg.2)
        simp [if_pos hg, if_neg hle]
      · simp [if_neg hg]

/-- C9 witness: instantiated at the (reachable) empty ledger and a concrete
resolve event. -/
theorem c9_witness :
    Signal.resolveNotADeposit ∉ (handle_resolve ⟨.resolve, 1, 100, none⟩ emptyLedger).2 :=
  (c9_disputed_records_positive emptyLedger Reachable.init).2.1 ⟨.resolve, 1, 100, none⟩

/-- C10: a positive-amount withdrawal for a client with no account is
rejected with the insufficient-funds signal (available 0 < amount), inserts
no transaction record, and still creates the client's zeroed unlocked
account, which therefore appears in the final output. -/
theorem c10_rejected_withdrawal_creates_account (c tx : ℕ) (amt : ℚ) (s : LedgerState)
    (hamt : 0 < amt) (hnone : lookupKey c s.accounts = none) :
    applyTransaction ⟨.withdrawal, c, tx, some amt⟩ s =
      ⟨setKey c (defaultAccount c) s.accounts, s.txs⟩ ∧
    signalsFor ⟨.withdrawal, c, tx, some amt⟩ s = [Signal.insufficientFunds] ∧
    lookupKey c (applyTransaction ⟨.withdrawal, c, tx, some amt⟩ s).accounts =
      some (defaultAccount c) ∧
    defaultAccount c ∈
      output_accounts (applyTransaction ⟨.withdrawal, c, tx, some amt⟩ s).accounts := by
  have hlk : accountLocked s.accounts c = false := by
    simp [accountLocked, hnone]
  have hg : getOrCreateAccount s.accounts c =
      (setKey c (defaultAccount c) s.accounts, defaultAccount c) := by
    simp [getOrCreateAccount, hnone]
  have hw : handle_withdrawal ⟨.withdrawal, c, tx, some amt⟩ s =
      (⟨setKey c (defaultAccount c) s.accounts, s.txs⟩, [Signal.insufficientFunds]) := by
    simp [handle_withdrawal, hamt.not_le, hlk, hg, defaultAccount]
  have hT : applyTransaction ⟨.withdrawal, c, tx, some amt⟩ s =
      (handle_withdrawal ⟨.withdrawal, c, tx, some amt⟩ s).1 := by
    simp [applyTransaction, handle_transaction, dispatchTransaction, hlk]
  have hS : signalsFor ⟨.withdrawal, c, tx, some amt⟩ s =
      (handle_withdrawal ⟨.withdrawal, c, tx, some amt⟩ s).2 := by
    simp [signalsFor, handle_transaction, dispatchTransaction, hlk]
  have h1 : applyTransaction ⟨.withdrawal, c, tx, some amt⟩ s =
      ⟨setKey c (defaultAccount c) s.accounts, s.txs⟩ := by
    rw [hT, hw]
  have h3 : lookupKey c (applyTransaction ⟨.withdrawal, c, tx, some amt⟩ s).accounts =
      some (defaultAccount c) := by
    rw [h1]
    simp [lookupKey_setKey]
  refine ⟨h1, by rw [hS, hw], h3, mem_map_snd_of_lookupKey h3⟩

/-- C10 witness: a withdrawal of 3 by the unseen client 7 on the empty
ledger creates exactly the zeroed account and nothing else. -/
theorem c10_witness :
    applyTransaction ⟨.withdrawal, 7, 5, some 3⟩ emptyLedger =
      ⟨setKey 7 (defaultAccount 7) emptyLedger.accounts, emptyLedger.txs⟩ ∧
    defaultAccount 7 ∈
      output_accounts (applyTransaction ⟨.withdrawal, 7, 5, some 3⟩ emptyLedger).accounts := by
  have h := c10_rejected_withdrawal_creates_account 7 5 3 emptyLedger (by norm_num) rfl
  exact ⟨h.1, h.2.2.2⟩
